import Mathlib

/-!
Verification of the chapter-rewriting pipeline (AI_epub_edits).

Shallow embedding of the core logic:
  - `RateLimiter` (ai_providers/base_provider.py): token bucket; monotonic-clock
    reads are passed in as explicit non-negative elapsed durations.
  - the retry loop of `AIProvider.rewrite_chapter` (ai_providers/base_provider.py),
    with the provider call modelled as a function from attempt number to a result.
  - `ProjectManager` chapter state (core/project_manager.py): status records,
    `get_pending_chapters`, `update_chapter_state`.  File writes and `save_state`
    calls are returned explicitly instead of performed.
  - `ContextManager.get_rolling_context` (core/context_manager.py).
  - `Orchestrator.run_pipeline` (core/orchestrator.py): the backfill step and the
    per-chapter rewrite loop, with provider outcomes passed in as oracles.
  - the concrete providers' `_perform_rewrite` / `count_tokens`
    (ai_providers/openai_provider.py, gemini_provider.py, aistudio_provider.py),
    with the vendor API call modelled as an `Except` argument.
-/

namespace AIEpub

/-- Token bucket state of `RateLimiter` (base_provider.py).  Rational numbers stand
for the Python floats; the RPM fields play no role in the token-bucket claims. -/
structure RateLimiter where
  tpm_capacity : ℚ
  refill_rate_per_second : ℚ
  tokens : ℚ
deriving DecidableEq

/-- `RateLimiter.__init__`: the bucket starts full and refills at `tpm_limit / 60`
units per second. -/
def RateLimiter.init (tpm_limit : ℚ) : RateLimiter :=
  { tpm_capacity := tpm_limit
    refill_rate_per_second := tpm_limit / 60
    tokens := tpm_limit }

/-- `RateLimiter._refill`: add `elapsed * refill_rate_per_second`, capped at capacity.
`elapsed` is the monotonic time since the previous refill. -/
def RateLimiter.refill (rl : RateLimiter) (elapsed : ℚ) : RateLimiter :=
  { rl with tokens := min rl.tpm_capacity (rl.tokens + elapsed * rl.refill_rate_per_second) }

/-- `RateLimiter.wait` (TPM part).  `elapsed1` is the time since the last refill when
the call reaches `self._refill()` (it absorbs any RPM pause); if the bucket is short
the code sleeps `wait_time = required_tokens / refill_rate_per_second` seconds and
refills again, `extra` being the non-negative overshoot of that sleep; finally the
requested amount is deducted unconditionally. -/
def RateLimiter.wait (rl : RateLimiter) (tokens_to_consume : ℚ) (elapsed1 extra : ℚ) :
    RateLimiter :=
  let rl1 := rl.refill elapsed1
  if tokens_to_consume > rl1.tokens then
    let wait_time := (tokens_to_consume - rl1.tokens) / rl1.refill_rate_per_second
    let rl2 := rl1.refill (wait_time + extra)
    { rl2 with tokens := rl2.tokens - tokens_to_consume }
  else
    { rl1 with tokens := rl1.tokens - tokens_to_consume }

/-- One `wait` call of a sequence: requested tokens, elapsed time since the previous
refill, and the sleep overshoot. -/
structure WaitCall where
  n : ℚ
  elapsed : ℚ
  extra : ℚ

/-- Bucket states observed immediately after each `wait` call's deduction step. -/
def waitTrace (rl : RateLimiter) : List WaitCall → List RateLimiter
  | [] => []
  | c :: rest =>
    let rl1 := rl.wait c.n c.elapsed c.extra
    rl1 :: waitTrace rl1 rest

/-- Well-formedness of a bucket of capacity `cap`: the derived fields agree with the
constructor and the level is within bounds. -/
def RateLimiter.WF (cap : ℚ) (rl : RateLimiter) : Prop :=
  rl.tpm_capacity = cap ∧ rl.refill_rate_per_second = cap / 60 ∧
    0 ≤ rl.tokens ∧ rl.tokens ≤ cap

/-- The retry loop of `AIProvider.rewrite_chapter` (base_provider.py).  `perform i`
is the outcome of the `i`-th `_perform_rewrite` attempt; `fuel` is the number of
loop iterations left (`retry_attempts + 1 - attempt`).  Returns the final outcome,
the number of `_perform_rewrite` invocations, and the list of back-off sleeps. -/
def rewriteGo (perform : Nat → Except String String) (retry_attempts : Nat)
    (retry_delay : ℚ) : Nat → Nat → Except String String × Nat × List ℚ
  | _, 0 =>
    (Except.error "RuntimeError: rewrite_chapter failed to return a response after all retries.",
      0, [])
  | attempt, fuel + 1 =>
    match perform attempt with
    | Except.ok r => (Except.ok r, 1, [])
    | Except.error e =>
      if attempt < retry_attempts then
        let rest := rewriteGo perform retry_attempts retry_delay (attempt + 1) fuel
        (rest.1, rest.2.1 + 1, retry_delay * 2 ^ attempt :: rest.2.2)
      else
        (Except.error e, 1, [])

/-- `AIProvider.rewrite_chapter`: run the retry loop from attempt 0 with
`retry_attempts + 1` iterations available. -/
def rewrite_chapter (perform : Nat → Except String String) (retry_attempts : Nat)
    (retry_delay : ℚ) : Except String String × Nat × List ℚ :=
  rewriteGo perform retry_attempts retry_delay 0 (retry_attempts + 1)

/-- Chapter status values used in `project_state.json` (project_manager.py). -/
inductive ChapterStatus where
  | pending
  | completed
  | failed
deriving DecidableEq

/-- One chapter record of the persisted project state
(`ProjectManager._initialize_project_state`). -/
structure Chapter where
  id : String
  title : String
  status : ChapterStatus
  original_text : String
  rewritten_text_file : String
  summary : String
  error : Option String
deriving DecidableEq

/-- The persisted project state: `projectName`, `totalChapters`, and the mapping from
(decimal string) chapter index to chapter record, modelled as an association list
with `Nat` keys.  Python dict keys are unique; theorems that need this assume
`Nodup` on the key list. -/
structure ProjectState where
  projectName : String
  totalChapters : Nat
  chapters : List (Nat × Chapter)
deriving DecidableEq

/-- Dictionary read `state['chapters'][str(k)]` / `.get(str(k))`. -/
def lookupChapter (chs : List (Nat × Chapter)) (k : Nat) : Option Chapter :=
  (chs.find? (fun p => p.1 == k)).map Prod.snd

/-- Dictionary write `state['chapters'][str(k)] = c`. -/
def setChapter (chs : List (Nat × Chapter)) (k : Nat) (c : Chapter) :
    List (Nat × Chapter) :=
  chs.map (fun p => if p.1 = k then (k, c) else p)

/-- Python truthiness of an `Optional[str]`: `None` and `""` are falsy.  The code
guards its field updates with `if rewritten_text:`, `if summary:`, `if error:`. -/
def truthy : Option String → Bool
  | none => false
  | some s => s != ""

/-- Result of one `ProjectManager.update_chapter_state` call: the new in-memory
state, the text files written (name, content), and whether `save_state` ran. -/
structure UpdateResult where
  state : ProjectState
  fileWrites : List (String × String)
  savedState : Bool
deriving DecidableEq

/-- The record mutation performed by `update_chapter_state` on the found chapter:
`status` is always set, `summary` and `error` only when the argument is truthy. -/
def updatedChapter (ch : Chapter) (status : ChapterStatus)
    (summary error : Option String) : Chapter :=
  let ch1 : Chapter := { ch with status := status }
  let ch2 : Chapter := if truthy summary then { ch1 with summary := summary.getD "" } else ch1
  if truthy error then { ch2 with error := some (error.getD "") } else ch2

/-- `ProjectManager.update_chapter_state` (project_manager.py): if the key is
present, set `status`, write the rewritten text file when the argument is truthy,
merge in `summary` and `error` when truthy, then save; otherwise do nothing. -/
def update_chapter_state (st : ProjectState) (chapter_index : Nat)
    (status : ChapterStatus) (rewritten_text summary error : Option String) :
    UpdateResult :=
  match lookupChapter st.chapters chapter_index with
  | none => { state := st, fileWrites := [], savedState := false }
  | some ch =>
    let newChapters :=
      setChapter st.chapters chapter_index (updatedChapter ch status summary error)
    let writes : List (String × String) :=
      if truthy rewritten_text then [(ch.rewritten_text_file, rewritten_text.getD "")]
      else []
    { state := { st with chapters := newChapters }
      fileWrites := writes
      savedState := true }

/-- Key ordering used by `sorted(state['chapters'], key=lambda x: int(x))`. -/
def keyLE (a b : Nat × Chapter) : Prop := a.1 ≤ b.1

instance : DecidableRel keyLE := fun a b => Nat.decLe a.1 b.1

instance : IsTotal (Nat × Chapter) keyLE := ⟨fun a b => Nat.le_total a.1 b.1⟩

instance : IsTrans (Nat × Chapter) keyLE := ⟨fun _ _ _ h1 h2 => Nat.le_trans h1 h2⟩

/-- The chapter map iterated in ascending index order. -/
def sortChapters (chs : List (Nat × Chapter)) : List (Nat × Chapter) :=
  List.insertionSort keyLE chs

/-- Loop body of `ProjectManager.get_pending_chapters`: skip indices outside
`[start_chapter, end_chapter or infinity]`, keep `pending` chapters while `count`
is below the cap (`max = 0` means unlimited). -/
def getPendingAux (maxC lo hi : Nat) : List (Nat × Chapter) → Nat → List (Nat × Chapter)
  | [], _ => []
  | (k, d) :: rest, count =>
    if k < lo then getPendingAux maxC lo hi rest count
    else if hi ≠ 0 ∧ hi < k then getPendingAux maxC lo hi rest count
    else if d.status = ChapterStatus.pending then
      if maxC = 0 ∨ count < maxC then (k, d) :: getPendingAux maxC lo hi rest (count + 1)
      else getPendingAux maxC lo hi rest count
    else getPendingAux maxC lo hi rest count

/-- `ProjectManager.get_pending_chapters(max_chapters_to_run, start_chapter,
end_chapter)`. -/
def get_pending_chapters (st : ProjectState)
    (max_chapters_to_run start_chapter end_chapter : Nat) : List (Nat × Chapter) :=
  getPendingAux max_chapters_to_run start_chapter end_chapter (sortChapters st.chapters) 0

/-- Membership predicate of the claim: index in range (0 upper bound = unbounded) and
status pending. -/
def pendingPred (lo hi : Nat) (p : Nat × Chapter) : Bool :=
  decide (lo ≤ p.1) && (decide (hi = 0) || decide (p.1 ≤ hi)) &&
    decide (p.2.status = ChapterStatus.pending)

/-- Cap a list at `maxC` elements, `maxC = 0` meaning no cap. -/
def truncTo (maxC : Nat) (l : List (Nat × Chapter)) : List (Nat × Chapter) :=
  if maxC = 0 then l else l.take maxC

/-- `ContextManager.get_rolling_context` (context_manager.py).  A pure read: the
returned prompt block for chapter `current_chapter_index`. -/
def get_rolling_context (st : ProjectState) (current_chapter_index : Nat) : String :=
  if current_chapter_index ≤ 1 then "This is the first chapter."
  else
    match lookupChapter st.chapters (current_chapter_index - 1) with
    | none => "No summary available for the previous chapter."
    | some previous_chapter =>
      if previous_chapter.summary ≠ "" then
        "Context from Previous Chapter: " ++ previous_chapter.summary
      else
        "No summary available for the previous chapter."

/-- Trace of one `Orchestrator.run_pipeline` call: final state, names of all text
files written, the chapter indices the loop attempted (in order), and, after each
`update_chapter_state`, the state together with the file names written so far. -/
structure RunTrace where
  finalState : ProjectState
  finalWrites : List String
  attempted : List Nat
  states : List (ProjectState × List String)

/-- The per-chapter loop of `Orchestrator.run_pipeline` (orchestrator.py, the
`for chapter in tqdm(pending_chapters)` loop).  `rewriteResult k` is the outcome of
`rewrite_chapter` for chapter `k` (ok text, or the raised exception's message);
`summaryResult k` is the summary text (`generate_chapter_summary` never raises).
On success the chapter is persisted `completed` with text and summary; on failure it
is persisted `failed` with the exception message, and the loop continues. -/
def run_loop (rewriteResult : Nat → Except String String) (summaryResult : Nat → String) :
    List (Nat × Chapter) → ProjectState → List String → RunTrace
  | [], st, w => { finalState := st, finalWrites := w, attempted := [], states := [] }
  | (index, _ch) :: rest, st, w =>
    match rewriteResult index with
    | Except.ok rewritten_text =>
      let summary := summaryResult index
      let u := update_chapter_state st index ChapterStatus.completed
        (some rewritten_text) (some summary) none
      let w1 := w ++ u.fileWrites.map Prod.fst
      let t := run_loop rewriteResult summaryResult rest u.state w1
      { finalState := t.finalState, finalWrites := t.finalWrites,
        attempted := index :: t.attempted, states := (u.state, w1) :: t.states }
    | Except.error e =>
      let u := update_chapter_state st index ChapterStatus.failed none none (some e)
      let w1 := w ++ u.fileWrites.map Prod.fst
      let t := run_loop rewriteResult summaryResult rest u.state w1
      { finalState := t.finalState, finalWrites := t.finalWrites,
        attempted := index :: t.attempted, states := (u.state, w1) :: t.states }

/-- `Orchestrator.run_pipeline`: select the pending chapters, backfill the summary of
chapter `start_chapter - 1` when that chapter exists with an empty summary
(`backfillSummary` is the oracle for that `generate_chapter_summary` call), then run
the rewrite loop.  The file set starts empty (fresh project). -/
def run_pipeline (rewriteResult : Nat → Except String String)
    (summaryResult : Nat → String) (backfillSummary : String) (st : ProjectState)
    (max_chapters start_chapter end_chapter : Nat) : RunTrace :=
  let pending := get_pending_chapters st max_chapters start_chapter end_chapter
  let prev_index := start_chapter - 1
  if 0 < prev_index then
    match lookupChapter st.chapters prev_index with
    | some prev_chap =>
      if prev_chap.summary = "" then
        let u := update_chapter_state st prev_index prev_chap.status none
          (some backfillSummary) none
        let t := run_loop rewriteResult summaryResult pending u.state
          (u.fileWrites.map Prod.fst)
        { finalState := t.finalState, finalWrites := t.finalWrites,
          attempted := t.attempted,
          states := (u.state, u.fileWrites.map Prod.fst) :: t.states }
      else run_loop rewriteResult summaryResult pending st []
    | none => run_loop rewriteResult summaryResult pending st []
  else run_loop rewriteResult summaryResult pending st []

/-- The spec's per-chapter invariant: completed chapters have their rewritten text on
disk, failed chapters carry a non-empty error message. -/
def chapterInv (written : List String) (ch : Chapter) : Prop :=
  (ch.status = ChapterStatus.completed → ch.rewritten_text_file ∈ written) ∧
    (ch.status = ChapterStatus.failed → ∃ e, ch.error = some e ∧ e ≠ "")

/-- The invariant over a whole project state, relative to the set of files written
so far. -/
def stateInv (written : List String) (st : ProjectState) : Prop :=
  ∀ p ∈ st.chapters, chapterInv written p.2

/-- The message slot of an OpenAI chat completion choice; `content` may be absent. -/
structure OpenAIMessage where
  content : Option String
deriving DecidableEq

/-- One choice of an OpenAI chat completion response. -/
structure OpenAIChoice where
  message : OpenAIMessage
deriving DecidableEq

/-- An OpenAI chat completion response. -/
structure OpenAIResponse where
  choices : List OpenAIChoice
deriving DecidableEq

/-- Python `x or dflt` on an optional string: falsy (`None` or `""`) picks `dflt`. -/
def pyOr (x : Option String) (dflt : String) : String :=
  match x with
  | some s => if s = "" then dflt else s
  | none => dflt

/-- `OpenAIProvider._perform_rewrite` (openai_provider.py): the vendor call is the
`Except` argument (its exceptions are re-raised); on a response it returns
`response.choices[0].message.content or ""` (an empty list makes the subscript
raise, re-raised by the bare `raise`). -/
def openai_perform_rewrite (api_result : Except String OpenAIResponse) :
    Except String String :=
  match api_result with
  | Except.error e => Except.error e
  | Except.ok response =>
    match response.choices with
    | [] => Except.error "IndexError: list index out of range"
    | choice :: _ => Except.ok (pyOr choice.message.content "")

/-- A Gemini / AI Studio generation response: its parts and, when the prompt was
blocked, the block reason name from `prompt_feedback`. -/
structure GeminiResponse where
  parts : List String
  block_reason : Option String
deriving DecidableEq

/-- `response.text`: the concatenated parts. -/
def GeminiResponse.text (r : GeminiResponse) : String := String.join r.parts

/-- `GeminiProvider._perform_rewrite` (gemini_provider.py): vendor exceptions are
re-raised; a response with no parts raises `ValueError`, otherwise the text is
returned. -/
def gemini_perform_rewrite (api_result : Except String GeminiResponse) :
    Except String String :=
  match api_result with
  | Except.error e => Except.error e
  | Except.ok response =>
    if response.parts = [] then
      Except.error ("Gemini response was empty or blocked. Reason: " ++
        response.block_reason.getD "UNKNOWN")
    else Except.ok response.text

/-- `AIStudioProvider._perform_rewrite` (aistudio_provider.py): same structure as the
Gemini provider, different error text. -/
def aistudio_perform_rewrite (api_result : Except String GeminiResponse) :
    Except String String :=
  match api_result with
  | Except.error e => Except.error e
  | Except.ok response =>
    if response.parts = [] then
      Except.error ("AI Studio response was empty or blocked. Reason: " ++
        response.block_reason.getD "UNKNOWN")
    else Except.ok response.text

/-- `GeminiProvider.count_tokens`: the vendor count is the `Except` argument; any
exception is caught and the fallback `len(text) // 4` is returned. -/
def gemini_count_tokens (text : String) (api_result : Except String Nat) : Nat :=
  match api_result with
  | Except.ok total_tokens => total_tokens
  | Except.error _ => text.length / 4

/-- `AIStudioProvider.count_tokens`: identical recovery to the Gemini provider. -/
def aistudio_count_tokens (text : String) (api_result : Except String Nat) : Nat :=
  match api_result with
  | Except.ok total_tokens => total_tokens
  | Except.error _ => text.length / 4

/-- `OpenAIProvider.count_tokens`: `len(self.tokenizer.encode(text))` with no
exception handler — a tokenizer failure propagates to the caller.  `encode_result`
is the outcome of `self.tokenizer.encode(text)`. -/
def openai_count_tokens (text : String) (encode_result : Except String (List Nat)) :
    Except String Nat :=
  match encode_result with
  | Except.ok toks => Except.ok toks.length
  | Except.error e => Except.error e

/-- Chapter record fixture for concrete test states. -/
def mkChapter (file : String) (status : ChapterStatus) (summary : String)
    (error : Option String) : Chapter :=
  { id := file, title := "t", status := status, original_text := "o",
    rewritten_text_file := file, summary := summary, error := error }

/-- Fixture: single pending chapter (C10 witness). -/
def stC10 : ProjectState :=
  { projectName := "p", totalChapters := 1,
    chapters := [(1, mkChapter "chapter_001.txt" ChapterStatus.pending "" none)] }

/-- Fixture: chapter 1 completed with persisted summary "S" (C3). -/
def stC3 : ProjectState :=
  { projectName := "p", totalChapters := 2,
    chapters := [(1, mkChapter "chapter_001.txt" ChapterStatus.completed "S" none)] }

/-- Fixture: chapters 1 completed, 2 pending, 3 pending (C4 witness). -/
def stC4 : ProjectState :=
  { projectName := "p", totalChapters := 3,
    chapters := [(1, mkChapter "chapter_001.txt" ChapterStatus.completed "s1" none),
      (2, mkChapter "chapter_002.txt" ChapterStatus.pending "" none),
      (3, mkChapter "chapter_003.txt" ChapterStatus.pending "" none)] }

/-- Fixture: single pending chapter (C5 counterexample). -/
def stC5 : ProjectState :=
  { projectName := "p", totalChapters := 1,
    chapters := [(1, mkChapter "chapter_001.txt" ChapterStatus.pending "" none)] }

/-- Fixture: two pending chapters (C6). -/
def stC6 : ProjectState :=
  { projectName := "p", totalChapters := 2,
    chapters := [(1, mkChapter "chapter_001.txt" ChapterStatus.pending "" none),
      (2, mkChapter "chapter_002.txt" ChapterStatus.pending "" none)] }

/-- Rewrite oracle for the C6 counterexample: chapter 1 raises with an empty
message, chapter 2 succeeds. -/
def rwC6 : Nat → Except String String :=
  fun k => if k = 1 then Except.error "" else Except.ok "rewritten"

/-- Rewrite oracle for the C6 witness: chapter 1 raises with message "boom",
chapter 2 succeeds. -/
def rwC6w : Nat → Except String String :=
  fun k => if k = 1 then Except.error "boom" else Except.ok "rewritten"

/-- Fixture: two pending chapters for the C6 witness run. -/
def stC6w : ProjectState :=
  { projectName := "q", totalChapters := 2,
    chapters := [(1, mkChapter "chapter_001.txt" ChapterStatus.pending "" none),
      (2, mkChapter "chapter_002.txt" ChapterStatus.pending "" none)] }

/-- Fixture: chapter 1 failed with a recorded error (C9 counterexample). -/
def stC9 : ProjectState :=
  { projectName := "p", totalChapters := 1,
    chapters := [(1, mkChapter "chapter_001.txt" ChapterStatus.failed ""
      (some "previous failure"))] }

/-- Fixture: single pending chapter (C5 witness run). -/
def stC5w : ProjectState :=
  { projectName := "q", totalChapters := 1,
    chapters := [(1, mkChapter "chapter_001.txt" ChapterStatus.pending "" none)] }

/-! Helper lemmas about the association-list dictionary. -/

theorem lookupChapter_nil (k : Nat) : lookupChapter [] k = none := rfl

theorem lookupChapter_cons (p : Nat × Chapter) (chs : List (Nat × Chapter)) (k : Nat) :
    lookupChapter (p :: chs) k =
      (if p.1 = k then some p.2 else lookupChapter chs k) := by
  by_cases h : p.1 = k
  · simp [lookupChapter, List.find?_cons, h]
  · simp [lookupChapter, List.find?_cons, h]

theorem setChapter_nil (k : Nat) (c : Chapter) : setChapter [] k c = [] := rfl

theorem setChapter_cons (p : Nat × Chapter) (chs : List (Nat × Chapter)) (k : Nat)
    (c : Chapter) :
    setChapter (p :: chs) k c =
      (if p.1 = k then (k, c) else p) :: setChapter chs k c := rfl

/-- `setChapter` does not change the key list. -/
theorem setChapter_keys (chs : List (Nat × Chapter)) (k : Nat) (c : Chapter) :
    (setChapter chs k c).map Prod.fst = chs.map Prod.fst := by
  induction chs with
  | nil => rfl
  | cons p rest ih =>
    rw [setChapter_cons]
    by_cases h : p.1 = k
    · simp [h, ih]
    · simp [h, ih]

/-- Replacing key `k` makes lookups of `k` return the new record, provided the key
was present. -/
theorem lookupChapter_setChapter_self (chs : List (Nat × Chapter)) (k : Nat)
    (c : Chapter) (h : (lookupChapter chs k).isSome) :
    lookupChapter (setChapter chs k c) k = some c := by
  induction chs with
  | nil => simp [lookupChapter_nil] at h
  | cons p rest ih =>
    rw [setChapter_cons]
    by_cases hk : p.1 = k
    · simp [hk, lookupChapter_cons]
    · rw [lookupChapter_cons] at h ⊢
      simp only [hk, if_false] at h ⊢
      exact ih h

/-- Replacing key `j ≠ k` does not change lookups of `k`. -/
theorem lookupChapter_setChapter_other (chs : List (Nat × Chapter)) (j k : Nat)
    (c : Chapter) (h : j ≠ k) :
    lookupChapter (setChapter chs j c) k = lookupChapter chs k := by
  induction chs with
  | nil => rfl
  | cons p rest ih =>
    obtain ⟨a, b⟩ := p
    rw [setChapter_cons]
    by_cases hj : a = j
    · subst hj
      simp [lookupChapter_cons, h, ih]
    · by_cases hk : a = k <;> simp [lookupChapter_cons, hj, hk, Ne.symm h, ih]

/-- A key in the key list has a record. -/
theorem lookupChapter_isSome_of_mem (chs : List (Nat × Chapter)) (k : Nat)
    (h : k ∈ chs.map Prod.fst) : (lookupChapter chs k).isSome := by
  induction chs with
  | nil => simp at h
  | cons p rest ih =>
    rw [lookupChapter_cons]
    by_cases hk : p.1 = k
    · simp [hk]
    · simp only [hk, if_false]
      apply ih
      simp only [List.map_cons, List.mem_cons] at h
      rcases h with h | h
      · exact absurd h.symm hk
      · exact h

/-- A successful lookup's record is a member of the list. -/
theorem mem_of_lookupChapter_eq_some (chs : List (Nat × Chapter)) (k : Nat)
    (ch : Chapter) (h : lookupChapter chs k = some ch) : (k, ch) ∈ chs := by
  induction chs with
  | nil => simp [lookupChapter_nil] at h
  | cons p rest ih =>
    rw [lookupChapter_cons] at h
    split at h
    · next h1 =>
      injection h with h2
      have hp : p = (k, ch) := by
        obtain ⟨a, b⟩ := p
        simp_all
      rw [hp]
      exact List.mem_cons_self _ _
    · exact List.mem_cons_of_mem _ (ih h)

/-- `updatedChapter` always sets the status field. -/
theorem updatedChapter_status (ch : Chapter) (status : ChapterStatus)
    (s e : Option String) : (updatedChapter ch status s e).status = status := by
  simp only [updatedChapter]
  split <;> split <;> rfl

/-- `updatedChapter` never touches the rewritten-text file name. -/
theorem updatedChapter_file (ch : Chapter) (status : ChapterStatus)
    (s e : Option String) :
    (updatedChapter ch status s e).rewritten_text_file = ch.rewritten_text_file := by
  simp only [updatedChapter]
  split <;> split <;> rfl

/-- With no error argument the error field is left untouched. -/
theorem updatedChapter_error_none (ch : Chapter) (status : ChapterStatus)
    (s : Option String) : (updatedChapter ch status s none).error = ch.error := by
  simp only [updatedChapter]
  rw [if_neg (by decide)]
  split <;> rfl

/-- A non-empty error argument is stored. -/
theorem updatedChapter_error_some (ch : Chapter) (status : ChapterStatus)
    (s : Option String) (e : String) (he : e ≠ "") :
    (updatedChapter ch status s (some e)).error = some e := by
  simp only [updatedChapter]
  rw [if_pos (by simp [truthy, he])]
  rfl

/-- Characterization of `update_chapter_state` when the key is absent. -/
theorem update_chapter_state_none (st : ProjectState) (k : Nat)
    (status : ChapterStatus) (rt s e : Option String)
    (h : lookupChapter st.chapters k = none) :
    update_chapter_state st k status rt s e =
      { state := st, fileWrites := [], savedState := false } := by
  unfold update_chapter_state
  rw [h]

/-- Characterization of `update_chapter_state` when the key is present. -/
theorem update_chapter_state_some (st : ProjectState) (k : Nat)
    (status : ChapterStatus) (rt s e : Option String) (ch : Chapter)
    (h : lookupChapter st.chapters k = some ch) :
    update_chapter_state st k status rt s e =
      { state := { st with chapters := setChapter st.chapters k (updatedChapter ch status s e) }
        fileWrites :=
          if truthy rt then [(ch.rewritten_text_file, rt.getD "")] else []
        savedState := true } := by
  unfold update_chapter_state
  rw [h]

/-- `update_chapter_state` never changes the key list. -/
theorem update_chapter_state_keys (st : ProjectState) (k : Nat)
    (status : ChapterStatus) (rt s e : Option String) :
    (update_chapter_state st k status rt s e).state.chapters.map Prod.fst =
      st.chapters.map Prod.fst := by
  cases hlk : lookupChapter st.chapters k with
  | none => rw [update_chapter_state_none st k status rt s e hlk]
  | some ch =>
    rw [update_chapter_state_some st k status rt s e ch hlk]
    exact setChapter_keys _ _ _

/-- `update_chapter_state` at key `j` leaves lookups of `k ≠ j` unchanged. -/
theorem update_chapter_state_lookup_other (st : ProjectState) (j k : Nat)
    (status : ChapterStatus) (rt s e : Option String) (h : j ≠ k) :
    lookupChapter (update_chapter_state st j status rt s e).state.chapters k =
      lookupChapter st.chapters k := by
  cases hlk : lookupChapter st.chapters j with
  | none => rw [update_chapter_state_none st j status rt s e hlk]
  | some ch =>
    rw [update_chapter_state_some st j status rt s e ch hlk]
    exact lookupChapter_setChapter_other _ _ _ _ h

/-- After an update at a present key, the looked-up record is the mutated one. -/
theorem update_chapter_state_lookup_self (st : ProjectState) (k : Nat)
    (status : ChapterStatus) (rt s e : Option String) (ch : Chapter)
    (hlk : lookupChapter st.chapters k = some ch) :
    lookupChapter (update_chapter_state st k status rt s e).state.chapters k =
      some (updatedChapter ch status s e) := by
  rw [update_chapter_state_some st k status rt s e ch hlk]
  exact lookupChapter_setChapter_self _ _ _ (by rw [hlk]; rfl)

/-- C10: `update_chapter_state` on an index whose key is absent from the chapter map
is a silent no-op: the state is unchanged, no rewritten-text file is written, and
`save_state` is never invoked. -/
theorem update_chapter_state_missing_key_noop (st : ProjectState) (k : Nat)
    (status : ChapterStatus) (rt s e : Option String)
    (h : lookupChapter st.chapters k = none) :
    update_chapter_state st k status rt s e =
      { state := st, fileWrites := [], savedState := false } := by
  unfold update_chapter_state
  rw [h]

/-- C10 witness: updating chapter 2 of a one-chapter state does nothing. -/
theorem update_chapter_state_missing_key_noop_witness :
    update_chapter_state stC10 2 ChapterStatus.completed (some "x") (some "y") none =
      { state := stC10, fileWrites := [], savedState := false } :=
  update_chapter_state_missing_key_noop stC10 2 ChapterStatus.completed
    (some "x") (some "y") none (by decide)

/-- C9 counterexample: chapter 1 carries the error "previous failure" from a failed
attempt; a subsequent successful update (status completed, text and summary, no
error argument) leaves the error field populated — `if error:` never clears it. -/
theorem update_completed_error_not_cleared :
    (lookupChapter (update_chapter_state stC9 1 ChapterStatus.completed
        (some "new text") (some "sum") none).state.chapters 1).map Chapter.error =
      some (some "previous failure") := by
  decide

/-- C9 (amended): a successful `update_chapter_state` (status completed, rewritten
text and summary, no error argument) leaves the chapter's error field exactly as it
was — it is not cleared on success. -/
theorem update_completed_keeps_error (st : ProjectState) (k : Nat) (ch : Chapter)
    (rt s : Option String) (hlk : lookupChapter st.chapters k = some ch) :
    ∃ ch2, lookupChapter (update_chapter_state st k ChapterStatus.completed
        rt s none).state.chapters k = some ch2 ∧
      ch2.error = ch.error ∧ ch2.status = ChapterStatus.completed := by
  unfold update_chapter_state
  rw [hlk]
  simp only []
  refine ⟨_, lookupChapter_setChapter_self st.chapters k _ (by rw [hlk]; rfl), ?_, ?_⟩
  · exact updatedChapter_error_none ch ChapterStatus.completed s
  · exact updatedChapter_status ch ChapterStatus.completed s none

/-- C9 witness: the amended fact evaluated on the C9 fixture. -/
theorem update_completed_keeps_error_witness :
    ∃ ch2, lookupChapter (update_chapter_state stC9 1 ChapterStatus.completed
        (some "new text") (some "sum") none).state.chapters 1 = some ch2 ∧
      ch2.error = (mkChapter "chapter_001.txt" ChapterStatus.failed ""
        (some "previous failure")).error ∧
      ch2.status = ChapterStatus.completed :=
  update_completed_keeps_error stC9 1
    (mkChapter "chapter_001.txt" ChapterStatus.failed "" (some "previous failure"))
    (some "new text") (some "sum") (by decide)

/-- C3 counterexample: chapter 1's persisted summary is "S", but the rolling context
for chapter 2 is the summary with the "Context from Previous Chapter: " prefix, not
the stored summary verbatim. -/
theorem get_rolling_context_not_verbatim :
    (lookupChapter stC3.chapters 1).map Chapter.summary = some "S" ∧
    get_rolling_context stC3 2 = "Context from Previous Chapter: S" ∧
    get_rolling_context stC3 2 ≠ "S" := by
  refine ⟨by decide, by decide, by decide⟩

/-- C3 (amended): `get_rolling_context k` returns the "first chapter" sentinel for
`k ≤ 1`; for `k > 1` it returns chapter `k-1`'s stored summary prefixed with
"Context from Previous Chapter: " when that summary is non-empty, and the
"no summary available" sentinel when chapter `k-1` is missing or its summary is
empty — performing no write and triggering no request (it is a pure read). -/
theorem get_rolling_context_spec (st : ProjectState) (k : Nat) :
    (k ≤ 1 → get_rolling_context st k = "This is the first chapter.") ∧
    (1 < k → ∀ prev, lookupChapter st.chapters (k - 1) = some prev →
      prev.summary ≠ "" →
      get_rolling_context st k = "Context from Previous Chapter: " ++ prev.summary) ∧
    (1 < k → lookupChapter st.chapters (k - 1) = none →
      get_rolling_context st k = "No summary available for the previous chapter.") ∧
    (1 < k → ∀ prev, lookupChapter st.chapters (k - 1) = some prev →
      prev.summary = "" →
      get_rolling_context st k = "No summary available for the previous chapter.") := by
  refine ⟨?_, ?_, ?_, ?_⟩
  · intro hk
    unfold get_rolling_context
    rw [if_pos hk]
  · intro hk prev hprev hs
    unfold get_rolling_context
    rw [if_neg (by omega), hprev]
    simp [hs]
  · intro hk hnone
    unfold get_rolling_context
    rw [if_neg (by omega), hnone]
  · intro hk prev hprev hs
    unfold get_rolling_context
    rw [if_neg (by omega), hprev]
    simp [hs]

/-- C3 witness: the amended fact evaluated on the C3 fixture (non-empty summary). -/
theorem get_rolling_context_spec_witness :
    get_rolling_context stC3 2 = "Context from Previous Chapter: " ++ "S" :=
  (get_rolling_context_spec stC3 2).2.1 (by decide)
    (mkChapter "chapter_001.txt" ChapterStatus.completed "S" none) (by decide) (by decide)

/-- C7 counterexample: `OpenAIProvider._perform_rewrite` returns the empty string as
a success value when the service responds with no message content
(`response.choices[0].message.content or ""`), instead of raising. -/
theorem openai_perform_rewrite_empty_success :
    openai_perform_rewrite (Except.ok
        { choices := [{ message := { content := none } }] }) = Except.ok "" := rfl

/-- C7 (amended): the Gemini and AI Studio providers raise an explicit error whenever
the service yields an empty or blocked (no-parts) result, but the OpenAI provider
returns the empty string as a success value when the message content is empty or
missing, so the claim holds only for the Gemini-family providers. -/
theorem perform_rewrite_empty_handling (r : GeminiResponse) (m : OpenAIMessage) :
    (r.parts = [] → gemini_perform_rewrite (Except.ok r) =
      Except.error ("Gemini response was empty or blocked. Reason: " ++
        r.block_reason.getD "UNKNOWN")) ∧
    (r.parts = [] → aistudio_perform_rewrite (Except.ok r) =
      Except.error ("AI Studio response was empty or blocked. Reason: " ++
        r.block_reason.getD "UNKNOWN")) ∧
    (m.content = none ∨ m.content = some "" →
      openai_perform_rewrite (Except.ok { choices := [{ message := m }] }) =
        Except.ok "") := by
  refine ⟨?_, ?_, ?_⟩
  · intro hp
    simp [gemini_perform_rewrite, hp]
  · intro hp
    simp [aistudio_perform_rewrite, hp]
  · intro hm
    rcases hm with hm | hm <;> simp [openai_perform_rewrite, pyOr, hm]

/-- C7 witness: the amended fact evaluated on a blocked Gemini response. -/
theorem perform_rewrite_empty_handling_witness :
    gemini_perform_rewrite (Except.ok { parts := [], block_reason := some "SAFETY" }) =
      Except.error ("Gemini response was empty or blocked. Reason: " ++
        (Option.getD (some "SAFETY") "UNKNOWN")) :=
  (perform_rewrite_empty_handling
    { parts := [], block_reason := some "SAFETY" } { content := none }).1 rfl

/-- C8 counterexample: `OpenAIProvider.count_tokens` has no exception handler, so a
tokenizer failure propagates instead of producing the `len(text) // 4` fallback
(here `"abcdefgh".length / 4 = 2`). -/
theorem openai_count_tokens_propagates :
    openai_count_tokens "abcdefgh"
        (Except.error "ValueError: disallowed special token") =
      Except.error "ValueError: disallowed special token" ∧
    ("abcdefgh".length / 4 = 2 ∧
      openai_count_tokens "abcdefgh"
          (Except.error "ValueError: disallowed special token") ≠ Except.ok 2) := by
  refine ⟨rfl, by decide, fun h => Except.noConfusion h⟩

/-- C8 (amended): the Gemini and AI Studio providers recover locally from a
token-counting failure and return the `len(text) // 4` estimate, but the OpenAI
provider's `count_tokens` propagates any tokenizer exception to the caller. -/
theorem count_tokens_fallback (text err : String) :
    gemini_count_tokens text (Except.error err) = text.length / 4 ∧
    aistudio_count_tokens text (Except.error err) = text.length / 4 ∧
    openai_count_tokens text (Except.error err) = Except.error err :=
  ⟨rfl, rfl, rfl⟩

/-- `_refill` preserves well-formedness: the refilled level stays in `[0, cap]`. -/
theorem RateLimiter.refill_WF {cap : ℚ} {rl : RateLimiter} (hcap : 0 < cap)
    (h : rl.WF cap) {e : ℚ} (he : 0 ≤ e) : (rl.refill e).WF cap := by
  obtain ⟨h1, h2, h3, h4⟩ := h
  refine ⟨h1, h2, ?_, ?_⟩
  · simp only [RateLimiter.refill]
    rw [h1, h2]
    have hrate : (0:ℚ) ≤ cap / 60 := by positivity
    exact le_min (le_of_lt hcap) (add_nonneg h3 (mul_nonneg he hrate))
  · simp only [RateLimiter.refill]
    rw [h1]
    exact min_le_left _ _

/-- One `wait` call preserves well-formedness provided the request is within
`[0, cap]` and the elapsed durations are non-negative. -/
theorem RateLimiter.wait_WF {cap : ℚ} {rl : RateLimiter} (hcap : 0 < cap)
    (h : rl.WF cap) {n e1 extra : ℚ} (hn0 : 0 ≤ n) (hncap : n ≤ cap)
    (he1 : 0 ≤ e1) (hextra : 0 ≤ extra) : (rl.wait n e1 extra).WF cap := by
  have hWF1 : (rl.refill e1).WF cap := RateLimiter.refill_WF hcap h he1
  obtain ⟨hc, hr, ht0, htc⟩ := hWF1
  have hrate : (0:ℚ) < cap / 60 := by positivity
  simp only [RateLimiter.wait]
  split
  · next hgt =>
    have ht2 : ((rl.refill e1).refill
        ((n - (rl.refill e1).tokens) / (rl.refill e1).refill_rate_per_second + extra)).tokens =
        min cap (n + extra * (cap / 60)) := by
      simp only [RateLimiter.refill]
      rw [h.1, h.2.1]
      congr 1
      have h60 : (cap / 60 : ℚ) ≠ 0 := ne_of_gt hrate
      field_simp
      ring
    have hge : n ≤ ((rl.refill e1).refill
        ((n - (rl.refill e1).tokens) / (rl.refill e1).refill_rate_per_second + extra)).tokens := by
      rw [ht2]
      exact le_min hncap (le_add_of_nonneg_right (mul_nonneg hextra hrate.le))
    have hle : ((rl.refill e1).refill
        ((n - (rl.refill e1).tokens) / (rl.refill e1).refill_rate_per_second + extra)).tokens ≤ cap := by
      rw [ht2]
      exact min_le_left _ _
    exact ⟨hc, hr, sub_nonneg.mpr hge, le_trans (sub_le_self _ hn0) hle⟩
  · next hgt =>
    exact ⟨hc, hr, sub_nonneg.mpr (not_lt.mp hgt), le_trans (sub_le_self _ hn0) htc⟩

/-- Every bucket state observed along a sequence of in-capacity `wait` calls stays
within `[0, cap]`. -/
theorem waitTrace_WF {cap : ℚ} (hcap : 0 < cap) :
    ∀ (calls : List WaitCall) (rl : RateLimiter), rl.WF cap →
      (∀ c ∈ calls, 0 ≤ c.n ∧ c.n ≤ cap ∧ 0 ≤ c.elapsed ∧ 0 ≤ c.extra) →
      ∀ r ∈ waitTrace rl calls, 0 ≤ r.tokens ∧ r.tokens ≤ cap := by
  intro calls
  induction calls with
  | nil =>
    intro rl h hok r hr
    simp [waitTrace] at hr
  | cons c rest ih =>
    intro rl h hok r hr
    have hc := hok c (List.mem_cons_self _ _)
    have hWF : (rl.wait c.n c.elapsed c.extra).WF cap :=
      RateLimiter.wait_WF hcap h hc.1 hc.2.1 hc.2.2.1 hc.2.2.2
    simp only [waitTrace] at hr
    rcases List.mem_cons.mp hr with h1 | h1
    · rw [h1]
      exact ⟨hWF.2.2.1, hWF.2.2.2⟩
    · exact ih _ hWF (fun c2 hc2 => hok c2 (List.mem_cons_of_mem _ hc2)) r h1

/-- C1 counterexample: a single `wait(120)` against a bucket of capacity 60 proceeds
(per the over-capacity warning path) and leaves the bucket at -60 immediately after
the deduction step, violating `0 ≤ tokens`. -/
theorem rateLimiter_over_capacity_negative :
    ((RateLimiter.init 60).wait 120 0 0).tokens = -60 ∧
    ((RateLimiter.init 60).wait 120 0 0).tokens < 0 := by
  have h : ((RateLimiter.init 60).wait 120 0 0).tokens = -60 := by
    simp only [RateLimiter.init, RateLimiter.wait, RateLimiter.refill]
    norm_num
  exact ⟨h, by rw [h]; norm_num⟩

/-- C1 (amended): for every sequence of `wait(n)` calls in which each request
satisfies `0 ≤ n ≤ capacity`, the bucket level stays in `[0, capacity]` at every
observation point, including immediately after each call's deduction step.  A call
requesting more than the total capacity still proceeds, but drives the level
negative right after its deduction (see the counterexample). -/
theorem rateLimiter_tokens_bounds (cap : ℚ) (calls : List WaitCall) (hcap : 0 < cap)
    (hok : ∀ c ∈ calls, 0 ≤ c.n ∧ c.n ≤ cap ∧ 0 ≤ c.elapsed ∧ 0 ≤ c.extra) :
    ∀ r ∈ waitTrace (RateLimiter.init cap) calls, 0 ≤ r.tokens ∧ r.tokens ≤ cap :=
  waitTrace_WF hcap calls (RateLimiter.init cap)
    ⟨rfl, rfl, le_of_lt hcap, le_refl cap⟩ hok

/-- C1 witness: the bound evaluated on a concrete in-capacity call. -/
theorem rateLimiter_tokens_bounds_witness :
    0 ≤ ((RateLimiter.init 60).wait 30 0 0).tokens ∧
      ((RateLimiter.init 60).wait 30 0 0).tokens ≤ 60 :=
  rateLimiter_tokens_bounds 60 [⟨30, 0, 0⟩] (by norm_num)
    (by
      intro c hc
      simp only [List.mem_singleton] at hc
      subst hc
      norm_num)
    ((RateLimiter.init 60).wait 30 0 0)
    (by simp [waitTrace])

/-- With an always-failing provider, the retry loop started at `attempt = a` with
`fuel = retry_attempts + 1 - a` performs one call per remaining attempt, sleeps
`retry_delay * 2 ^ i` after each non-final attempt `i`, and ends with the final
attempt's error. -/
theorem rewriteGo_always_fail (perform : Nat → Except String String)
    (retry_attempts : Nat) (retry_delay : ℚ)
    (hfail : ∀ i, ∃ e, perform i = Except.error e) :
    ∀ fuel a, a + fuel = retry_attempts + 1 → a ≤ retry_attempts →
      rewriteGo perform retry_attempts retry_delay a fuel =
        (perform retry_attempts, fuel,
          (List.range' a (retry_attempts - a)).map (fun i => retry_delay * 2 ^ i)) := by
  intro fuel
  induction fuel with
  | zero =>
    intro a ha hle
    omega
  | succ f ih =>
    intro a ha hle
    obtain ⟨e, he⟩ := hfail a
    simp only [rewriteGo, he]
    by_cases hlt : a < retry_attempts
    · rw [if_pos hlt]
      have hstep := ih (a + 1) (by omega) (by omega)
      rw [hstep]
      have hrange : retry_attempts - a = (retry_attempts - (a + 1)) + 1 := by omega
      rw [hrange, List.range'_succ]
      rfl
    · rw [if_neg hlt]
      have haeq : a = retry_attempts := by omega
      have hf0 : f = 0 := by omega
      subst haeq
      rw [he, hf0]
      simp

/-- C2: for a provider whose `_perform_rewrite` fails on every attempt,
`rewrite_chapter` invokes `_perform_rewrite` exactly `retry_attempts + 1` times,
sleeps `retry_delay * 2 ^ attempt` seconds between consecutive attempts (attempt
numbered from 0), and propagates the final attempt's exception to the caller. -/
theorem rewrite_chapter_always_fails_spec (perform : Nat → Except String String)
    (retry_attempts : Nat) (retry_delay : ℚ)
    (hfail : ∀ i, ∃ e, perform i = Except.error e) :
    (rewrite_chapter perform retry_attempts retry_delay).2.1 = retry_attempts + 1 ∧
    (rewrite_chapter perform retry_attempts retry_delay).2.2 =
      (List.range retry_attempts).map (fun i => retry_delay * 2 ^ i) ∧
    (rewrite_chapter perform retry_attempts retry_delay).1 = perform retry_attempts := by
  have h := rewriteGo_always_fail perform retry_attempts retry_delay hfail
    (retry_attempts + 1) 0 (by omega) (by omega)
  unfold rewrite_chapter
  rw [h]
  refine ⟨rfl, ?_, rfl⟩
  rw [List.range_eq_range']
  simp

/-- C2 witness: three attempts, sleeps of 2 and 4 seconds, final error "boom". -/
theorem rewrite_chapter_always_fails_witness :
    (rewrite_chapter (fun _ => Except.error "boom") 2 2).2.1 = 3 ∧
    (rewrite_chapter (fun _ => Except.error "boom") 2 2).2.2 = [2, 4] ∧
    (rewrite_chapter (fun _ => Except.error "boom") 2 2).1 = Except.error "boom" := by
  have h := rewrite_chapter_always_fails_spec (fun _ => Except.error "boom") 2 2
    (fun i => ⟨"boom", rfl⟩)
  refine ⟨h.1, ?_, h.2.2⟩
  rw [h.2.1]
  norm_num [List.range_succ]

/-- The selection loop keeps exactly the in-range pending chapters, capped at
`maxC - count` (no cap when `maxC = 0`). -/
theorem getPendingAux_eq_filter (maxC lo hi : Nat) :
    ∀ (l : List (Nat × Chapter)) (count : Nat),
      getPendingAux maxC lo hi l count =
        (if maxC = 0 then l.filter (pendingPred lo hi)
         else (l.filter (pendingPred lo hi)).take (maxC - count)) := by
  intro l
  induction l with
  | nil =>
    intro count
    simp [getPendingAux]
  | cons p rest ih =>
    intro count
    obtain ⟨k, d⟩ := p
    simp only [getPendingAux]
    by_cases h1 : k < lo
    · have hp : pendingPred lo hi (k, d) = false := by
        simp [pendingPred]
        omega
      rw [if_pos h1, ih count]
      simp [List.filter_cons, hp]
    · rw [if_neg h1]
      by_cases h2 : hi ≠ 0 ∧ hi < k
      · have hp : pendingPred lo hi (k, d) = false := by
          simp [pendingPred]
          omega
        rw [if_pos h2, ih count]
        simp [List.filter_cons, hp]
      · rw [if_neg h2]
        by_cases h3 : d.status = ChapterStatus.pending
        · rw [if_pos h3]
          have hp : pendingPred lo hi (k, d) = true := by
            simp [pendingPred, h3]
            omega
          by_cases h4 : maxC = 0 ∨ count < maxC
          · rw [if_pos h4, ih (count + 1)]
            by_cases h5 : maxC = 0
            · simp [h5, List.filter_cons, hp]
            · have h6 : count < maxC := h4.resolve_left h5
              simp only [h5, if_false, List.filter_cons, hp, if_true]
              rw [show maxC - count = (maxC - (count + 1)) + 1 by omega]
              rfl
          · rw [if_neg h4, ih count]
            have h5 : ¬ maxC = 0 := fun hh => h4 (Or.inl hh)
            have h6 : maxC - count = 0 := by omega
            simp [h5, List.filter_cons, hp, h6]
        · rw [if_neg h3]
          have hp : pendingPred lo hi (k, d) = false := by
            simp [pendingPred, h3]
          rw [ih count]
          simp [List.filter_cons, hp]

/-- C4: `get_pending_chapters(maxCount, startIndex, endIndex)` returns exactly the
chapters with status pending and index in `[startIndex, endIndex]` (`endIndex = 0`
meaning unbounded), in strictly ascending index order, truncated to the first
`maxCount` such chapters (`maxCount = 0` meaning unlimited); completed and failed
chapters are never returned. -/
theorem get_pending_chapters_spec (st : ProjectState) (maxC lo hi : Nat)
    (hnd : (st.chapters.map Prod.fst).Nodup) :
    get_pending_chapters st maxC lo hi =
      truncTo maxC ((sortChapters st.chapters).filter (pendingPred lo hi)) ∧
    List.Pairwise (fun a b : Nat × Chapter => a.1 < b.1)
      (get_pending_chapters st maxC lo hi) := by
  have heq : get_pending_chapters st maxC lo hi =
      truncTo maxC ((sortChapters st.chapters).filter (pendingPred lo hi)) := by
    unfold get_pending_chapters truncTo
    rw [getPendingAux_eq_filter]
    simp
  refine ⟨heq, ?_⟩
  have hsorted : List.Pairwise keyLE (sortChapters st.chapters) :=
    List.sorted_insertionSort keyLE st.chapters
  have hperm : (sortChapters st.chapters).Perm st.chapters :=
    List.perm_insertionSort keyLE st.chapters
  have hnd2 : ((sortChapters st.chapters).map Prod.fst).Nodup :=
    ((hperm.map Prod.fst).symm).nodup hnd
  have hne : List.Pairwise (fun a b : Nat × Chapter => a.1 ≠ b.1)
      (sortChapters st.chapters) := List.pairwise_map.mp hnd2
  have hlt : List.Pairwise (fun a b : Nat × Chapter => a.1 < b.1)
      (sortChapters st.chapters) :=
    (hsorted.and hne).imp (fun h => lt_of_le_of_ne h.1 h.2)
  have hsub : (get_pending_chapters st maxC lo hi).Sublist (sortChapters st.chapters) := by
    rw [heq]
    unfold truncTo
    split
    · exact List.filter_sublist _
    · exact (List.take_sublist _ _).trans (List.filter_sublist _)
  exact hlt.sublist hsub

/-- C4 witness: with chapters 1 completed / 2 pending / 3 pending, the selection
returns exactly chapters 2 and 3, in ascending order. -/
theorem get_pending_chapters_spec_witness :
    get_pending_chapters stC4 0 1 0 =
      truncTo 0 ((sortChapters stC4.chapters).filter (pendingPred 1 0)) ∧
    List.Pairwise (fun a b : Nat × Chapter => a.1 < b.1)
      (get_pending_chapters stC4 0 1 0) :=
  get_pending_chapters_spec stC4 0 1 0 (by decide)

/-- The invariant is monotone in the set of written files. -/
theorem chapterInv_mono {w w2 : List String} (hsub : ∀ x ∈ w, x ∈ w2) {ch : Chapter}
    (h : chapterInv w ch) : chapterInv w2 ch :=
  ⟨fun hc => hsub _ (h.1 hc), h.2⟩

/-- The state invariant is monotone in the set of written files. -/
theorem stateInv_mono {w w2 : List String} (hsub : ∀ x ∈ w, x ∈ w2)
    {st : ProjectState} (h : stateInv w st) : stateInv w2 st :=
  fun p hp => chapterInv_mono hsub (h p hp)

/-- Every member of `setChapter chs k c` is an old member or carries `c`. -/
theorem chapterInv_setChapter {w2 : List String} {chs : List (Nat × Chapter)}
    (k : Nat) (c : Chapter) (hold : ∀ p ∈ chs, chapterInv w2 p.2)
    (hc : chapterInv w2 c) : ∀ p ∈ setChapter chs k c, chapterInv w2 p.2 := by
  intro p hp
  unfold setChapter at hp
  obtain ⟨q, hq, hpq⟩ := List.mem_map.mp hp
  by_cases hqk : q.1 = k
  · rw [if_pos hqk] at hpq
    rw [← hpq]
    exact hc
  · rw [if_neg hqk] at hpq
    rw [← hpq]
    exact hold q hq

/-- A successful update (status completed, non-empty rewritten text) preserves the
invariant relative to the files written so far plus this call's write. -/
theorem stateInv_update_completed {w : List String} {st : ProjectState}
    (h : stateInv w st) (k : Nat) (rt : String) (hrt : rt ≠ "") (s : Option String) :
    stateInv (w ++ (update_chapter_state st k ChapterStatus.completed
        (some rt) s none).fileWrites.map Prod.fst)
      (update_chapter_state st k ChapterStatus.completed (some rt) s none).state := by
  cases hlk : lookupChapter st.chapters k with
  | none =>
    rw [update_chapter_state_none st k _ _ _ _ hlk]
    exact stateInv_mono (fun x hx => List.mem_append_left _ hx) h
  | some ch =>
    rw [update_chapter_state_some st k _ _ _ _ ch hlk]
    have htr : truthy (some rt) = true := by simp [truthy, hrt]
    intro p hp
    refine chapterInv_setChapter k _
      (fun q hq => chapterInv_mono (fun x hx => List.mem_append_left _ hx) (h q hq))
      ⟨?_, ?_⟩ p hp
    · intro _
      rw [updatedChapter_file]
      simp [htr]
    · intro habs
      rw [updatedChapter_status] at habs
      exact absurd habs (by simp)

/-- A failure update (status failed, non-empty error message) preserves the
invariant; it writes no file. -/
theorem stateInv_update_failed {w : List String} {st : ProjectState}
    (h : stateInv w st) (k : Nat) (e : String) (he : e ≠ "") :
    stateInv w (update_chapter_state st k ChapterStatus.failed none none
      (some e)).state := by
  cases hlk : lookupChapter st.chapters k with
  | none =>
    rw [update_chapter_state_none st k _ _ _ _ hlk]
    exact h
  | some ch =>
    rw [update_chapter_state_some st k _ _ _ _ ch hlk]
    intro p hp
    refine chapterInv_setChapter k _ (fun q hq => h q hq) ⟨?_, ?_⟩ p hp
    · intro habs
      rw [updatedChapter_status] at habs
      exact absurd habs (by simp)
    · intro _
      rw [updatedChapter_error_some ch ChapterStatus.failed none e he]
      exact ⟨e, rfl, he⟩

/-- The backfill update — same status, only a summary merged in — preserves the
invariant. -/
theorem stateInv_update_same_status {w : List String} {st : ProjectState}
    (h : stateInv w st) (k : Nat) (ch : Chapter)
    (hlk : lookupChapter st.chapters k = some ch) (s : Option String) :
    stateInv w (update_chapter_state st k ch.status none s none).state := by
  rw [update_chapter_state_some st k _ _ _ _ ch hlk]
  intro p hp
  have hch := h _ (mem_of_lookupChapter_eq_some _ _ _ hlk)
  refine chapterInv_setChapter k _ (fun q hq => h q hq) ⟨?_, ?_⟩ p hp
  · intro hc
    rw [updatedChapter_file]
    rw [updatedChapter_status] at hc
    exact hch.1 hc
  · intro hf
    rw [updatedChapter_error_none]
    rw [updatedChapter_status] at hf
    exact hch.2 hf

/-- Along the rewrite loop, every observed state satisfies the invariant relative to
the files written up to that point, provided successful rewrites are non-empty and
raised messages are non-empty. -/
theorem run_loop_states_inv (rewriteResult : Nat → Except String String)
    (summaryResult : Nat → String)
    (hok : ∀ k r, rewriteResult k = Except.ok r → r ≠ "")
    (herr : ∀ k e, rewriteResult k = Except.error e → e ≠ "") :
    ∀ (pending : List (Nat × Chapter)) (st : ProjectState) (w : List String),
      stateInv w st →
      (∀ q ∈ (run_loop rewriteResult summaryResult pending st w).states,
        stateInv q.2 q.1) ∧
      stateInv (run_loop rewriteResult summaryResult pending st w).finalWrites
        (run_loop rewriteResult summaryResult pending st w).finalState := by
  intro pending
  induction pending with
  | nil =>
    intro st w hw
    constructor
    · intro q hq
      simp [run_loop] at hq
    · simpa [run_loop] using hw
  | cons p rest ih =>
    intro st w hw
    obtain ⟨index, ch⟩ := p
    cases hrw : rewriteResult index with
    | ok rewritten =>
      have hne := hok index rewritten hrw
      have hInv := stateInv_update_completed hw index rewritten hne
        (some (summaryResult index))
      have hrest := ih _ _ hInv
      constructor
      · intro q hq
        simp only [run_loop, hrw] at hq
        rcases List.mem_cons.mp hq with h1 | h1
        · rw [h1]
          exact hInv
        · exact hrest.1 q h1
      · simp only [run_loop, hrw]
        exact hrest.2
    | error e =>
      have hne := herr index e hrw
      have hInv0 := stateInv_update_failed hw index e hne
      have hInv : stateInv (w ++ (update_chapter_state st index ChapterStatus.failed
          none none (some e)).fileWrites.map Prod.fst)
          (update_chapter_state st index ChapterStatus.failed none none
            (some e)).state :=
        stateInv_mono (fun x hx => List.mem_append_left _ hx) hInv0
      have hrest := ih _ _ hInv
      constructor
      · intro q hq
        simp only [run_loop, hrw] at hq
        rcases List.mem_cons.mp hq with h1 | h1
        · rw [h1]
          exact hInv
        · exact hrest.1 q h1
      · simp only [run_loop, hrw]
        exact hrest.2

/-- C5 counterexample: a pipeline run in which the provider returns the empty string
as a success (reachable through `OpenAIProvider._perform_rewrite`, which maps a
missing message content to `""`): the chapter ends `completed`, yet `if
rewritten_text:` skips the file write, so no rewritten text is ever written and the
invariant fails at a reachable state. -/
theorem run_pipeline_completed_without_write :
    (lookupChapter (run_pipeline (fun _ => Except.ok "") (fun _ => "") "" stC5
        0 1 0).finalState.chapters 1).map Chapter.status =
      some ChapterStatus.completed ∧
    (run_pipeline (fun _ => Except.ok "") (fun _ => "") "" stC5 0 1 0).finalWrites = [] ∧
    ¬ stateInv (run_pipeline (fun _ => Except.ok "") (fun _ => "") "" stC5
        0 1 0).finalWrites
      (run_pipeline (fun _ => Except.ok "") (fun _ => "") "" stC5 0 1 0).finalState := by
  refine ⟨by decide, by decide, ?_⟩
  intro hinv
  have h1 := hinv (1, { mkChapter "chapter_001.txt" ChapterStatus.pending "" none with
    status := ChapterStatus.completed }) (by decide)
  exact absurd (h1.1 (by decide)) (by decide)

/-- C5 (amended): starting from an all-pending initial state, every state observed
after an `update_chapter_state` reachable from the pipeline satisfies
`completed ⇒ rewritten text written` and `failed ⇒ non-empty error recorded`,
provided every successful rewrite result is a non-empty string and every raised
exception has a non-empty message.  (With an empty success text the status still
flips to completed but no file is written; with an empty message the status flips
to failed but the error stays null — see the counterexample.) -/
theorem run_pipeline_state_invariant (rewriteResult : Nat → Except String String)
    (summaryResult : Nat → String) (backfillSummary : String) (st : ProjectState)
    (maxC startc endc : Nat)
    (h0 : ∀ p ∈ st.chapters, p.2.status = ChapterStatus.pending)
    (hok : ∀ k r, rewriteResult k = Except.ok r → r ≠ "")
    (herr : ∀ k e, rewriteResult k = Except.error e → e ≠ "") :
    (∀ q ∈ (run_pipeline rewriteResult summaryResult backfillSummary st
        maxC startc endc).states, stateInv q.2 q.1) ∧
    stateInv (run_pipeline rewriteResult summaryResult backfillSummary st
        maxC startc endc).finalWrites
      (run_pipeline rewriteResult summaryResult backfillSummary st
        maxC startc endc).finalState := by
  have hw0 : stateInv [] st := by
    intro p hp
    constructor
    · intro hc
      rw [h0 p hp] at hc
      exact ChapterStatus.noConfusion hc
    · intro hf
      rw [h0 p hp] at hf
      exact ChapterStatus.noConfusion hf
  simp only [run_pipeline]
  by_cases hprev : 0 < startc - 1
  · rw [if_pos hprev]
    split
    · next prev_chap hlk =>
      split
      · next hsum =>
        have hu : stateInv [] (update_chapter_state st (startc - 1) prev_chap.status
            none (some backfillSummary) none).state :=
          stateInv_update_same_status hw0 (startc - 1) prev_chap hlk
            (some backfillSummary)
        have hu2 : stateInv ((update_chapter_state st (startc - 1) prev_chap.status
            none (some backfillSummary) none).fileWrites.map Prod.fst)
            (update_chapter_state st (startc - 1) prev_chap.status
              none (some backfillSummary) none).state :=
          stateInv_mono (fun x hx => by simp at hx) hu
        have hrest := run_loop_states_inv rewriteResult summaryResult hok herr
          (get_pending_chapters st maxC startc endc) _ _ hu2
        constructor
        · intro q hq
          rcases List.mem_cons.mp hq with h1 | h1
          · rw [h1]
            exact hu2
          · exact hrest.1 q h1
        · exact hrest.2
      · next hsum =>
        exact run_loop_states_inv rewriteResult summaryResult hok herr _ st [] hw0
    · next hlk =>
      exact run_loop_states_inv rewriteResult summaryResult hok herr _ st [] hw0
  · rw [if_neg hprev]
    exact run_loop_states_inv rewriteResult summaryResult hok herr _ st [] hw0

/-- C5 witness: the amended invariant evaluated on a concrete successful run. -/
theorem run_pipeline_state_invariant_witness :
    stateInv (run_pipeline (fun _ => Except.ok "text") (fun _ => "sum") "" stC5w
        0 1 0).finalWrites
      (run_pipeline (fun _ => Except.ok "text") (fun _ => "sum") "" stC5w
        0 1 0).finalState :=
  (run_pipeline_state_invariant (fun _ => Except.ok "text") (fun _ => "sum") ""
    stC5w 0 1 0 (by decide)
    (by
      intro k r h
      injection h with h2
      rw [← h2]
      decide)
    (fun k e h => Except.noConfusion h)).2

/-- The rewrite loop attempts every chapter of the pending list, in order,
whatever the outcomes. -/
theorem run_loop_attempted (rewriteResult : Nat → Except String String)
    (summaryResult : Nat → String) :
    ∀ (pending : List (Nat × Chapter)) (st : ProjectState) (w : List String),
      (run_loop rewriteResult summaryResult pending st w).attempted =
        pending.map Prod.fst := by
  intro pending
  induction pending with
  | nil =>
    intro st w
    rfl
  | cons p rest ih =>
    intro st w
    obtain ⟨index, ch⟩ := p
    cases hrw : rewriteResult index with
    | ok r => simp only [run_loop, hrw, List.map_cons, ih, List.cons.injEq, true_and]
    | error e => simp only [run_loop, hrw, List.map_cons, ih, List.cons.injEq, true_and]

/-- Chapters whose index is not in the pending list are untouched by the loop. -/
theorem run_loop_lookup_not_mem (rewriteResult : Nat → Except String String)
    (summaryResult : Nat → String) :
    ∀ (pending : List (Nat × Chapter)) (st : ProjectState) (w : List String) (k : Nat),
      k ∉ pending.map Prod.fst →
      lookupChapter (run_loop rewriteResult summaryResult
        pending st w).finalState.chapters k = lookupChapter st.chapters k := by
  intro pending
  induction pending with
  | nil =>
    intro st w k hk
    rfl
  | cons p rest ih =>
    intro st w k hk
    obtain ⟨index, ch⟩ := p
    simp only [List.map_cons, List.mem_cons] at hk
    push_neg at hk
    have hk1 : index ≠ k := fun hh => hk.1 hh.symm
    cases hrw : rewriteResult index with
    | ok r =>
      simp only [run_loop, hrw]
      rw [ih _ _ k hk.2, update_chapter_state_lookup_other _ _ _ _ _ _ _ hk1]
    | error e =>
      simp only [run_loop, hrw]
      rw [ih _ _ k hk.2, update_chapter_state_lookup_other _ _ _ _ _ _ _ hk1]

/-- C6 counterexample: chapter 1's rewrite raises with an empty message; it is
marked failed but — because `if error:` is false for `""` — its error field stays
null, so the persisted error is not a non-empty message.  Both chapters are still
attempted. -/
theorem run_loop_empty_error_message :
    (run_loop rwC6 (fun _ => "s") stC6.chapters stC6 []).attempted = [1, 2] ∧
    (lookupChapter (run_loop rwC6 (fun _ => "s") stC6.chapters stC6
        []).finalState.chapters 1).map Chapter.status = some ChapterStatus.failed ∧
    (lookupChapter (run_loop rwC6 (fun _ => "s") stC6.chapters stC6
        []).finalState.chapters 1).map Chapter.error = some none := by
  refine ⟨by decide, by decide, by decide⟩

/-- C6 (amended): in every run over a pending list (distinct indices, all present in
the state), every chapter of the list is attempted — no exception aborts or skips
the remainder of the loop — and a chapter whose rewrite raises with message `e` is
persisted with status failed; its error field records `e` provided `e` is non-empty
(an empty message leaves the error field at its prior null value, see the
counterexample). -/
theorem run_loop_partial_failure_isolation (rewriteResult : Nat → Except String String)
    (summaryResult : Nat → String) :
    ∀ (pending : List (Nat × Chapter)) (st : ProjectState) (w : List String),
      (pending.map Prod.fst).Nodup →
      (∀ p ∈ pending, p.1 ∈ st.chapters.map Prod.fst) →
      (run_loop rewriteResult summaryResult pending st w).attempted =
        pending.map Prod.fst ∧
      (∀ k ch e, (k, ch) ∈ pending → rewriteResult k = Except.error e → e ≠ "" →
        ∃ c, lookupChapter (run_loop rewriteResult summaryResult
            pending st w).finalState.chapters k = some c ∧
          c.status = ChapterStatus.failed ∧ c.error = some e) := by
  intro pending
  induction pending with
  | nil =>
    intro st w hnd hkeys
    refine ⟨rfl, ?_⟩
    intro k ch e hmem
    simp at hmem
  | cons p rest ih =>
    intro st w hnd hkeys
    obtain ⟨j, chj⟩ := p
    refine ⟨run_loop_attempted rewriteResult summaryResult _ st w, ?_⟩
    intro k ch e hmem hrwk hne
    have hndrest : (rest.map Prod.fst).Nodup := by
      simp only [List.map_cons, List.nodup_cons] at hnd
      exact hnd.2
    have hjnotrest : j ∉ rest.map Prod.fst := by
      simp only [List.map_cons, List.nodup_cons] at hnd
      exact hnd.1
    rcases List.mem_cons.mp hmem with hhead | hrest
    · injection hhead with hk hch
      subst hk
      simp only [run_loop, hrwk]
      rw [run_loop_lookup_not_mem rewriteResult summaryResult rest _ _ k hjnotrest]
      have hsome := lookupChapter_isSome_of_mem st.chapters k
        (hkeys (k, chj) (List.mem_cons_self _ _))
      obtain ⟨ch0, hch0⟩ := Option.isSome_iff_exists.mp hsome
      rw [update_chapter_state_lookup_self st k ChapterStatus.failed none none
        (some e) ch0 hch0]
      exact ⟨updatedChapter ch0 ChapterStatus.failed none (some e), rfl,
        updatedChapter_status _ _ _ _, updatedChapter_error_some _ _ _ e hne⟩
    · cases hrwj : rewriteResult j with
      | ok r =>
        simp only [run_loop, hrwj]
        have hkeys2 : ∀ p ∈ rest, p.1 ∈ (update_chapter_state st j
            ChapterStatus.completed (some r) (some (summaryResult j))
            none).state.chapters.map Prod.fst := by
          intro p hp
          rw [update_chapter_state_keys]
          exact hkeys p (List.mem_cons_of_mem _ hp)
        exact (ih _ _ hndrest hkeys2).2 k ch e hrest hrwk hne
      | error e2 =>
        simp only [run_loop, hrwj]
        have hkeys2 : ∀ p ∈ rest, p.1 ∈ (update_chapter_state st j
            ChapterStatus.failed none none (some e2)).state.chapters.map Prod.fst := by
          intro p hp
          rw [update_chapter_state_keys]
          exact hkeys p (List.mem_cons_of_mem _ hp)
        exact (ih _ _ hndrest hkeys2).2 k ch e hrest hrwk hne

/-- C6 witness: a concrete run in which chapter 1 fails with "boom" and chapter 2
succeeds still attempts both chapters. -/
theorem run_loop_partial_failure_isolation_witness :
    (run_loop rwC6w (fun _ => "s") stC6w.chapters stC6w []).attempted =
      stC6w.chapters.map Prod.fst :=
  (run_loop_partial_failure_isolation rwC6w (fun _ => "s") stC6w.chapters stC6w []
    (by decide) (by decide)).1

end AIEpub
